import Mathlib

set_option maxRecDepth 4000

/-!
# Verification of the Tork governance engine (`src/lib.rs`)

Shallow embedding of the core of the `tork-governance` crate: the PII
pattern registry, the detector (`detect_pii` / `Tork::detect_pii_internal`),
the receipt helpers (`hash_text`, `generate_receipt_id`) and the governance
engine (`Tork::govern`, statistics, configuration).

The Rust code matches text with the `regex` crate, which implements
leftmost-first (Perl-style priority) match semantics.  We embed the ten
fixed patterns as an abstract syntax tree `RE` and run them with a
fuel-bounded backtracking matcher implementing the same semantics:
alternations prefer the left branch, repetitions are greedy, `find_iter`
returns successive non-overlapping leftmost matches, and `replace_all`
replaces exactly those matches.  Character classes are modelled over the
ASCII range (the Rust crate's Unicode classes restricted to ASCII).
Strings are modelled as their character sequences; match offsets count
characters where the Rust code counts bytes (equal on ASCII text).

Effects of `Tork::govern` (wall-clock elapsed time, the current UTC time
and the freshly drawn v4 UUID) enter the embedding as explicit parameters.
-/

/-! ## Regular-expression engine -/

/-- Syntax of the regular expressions used by the pattern registry. -/
inductive RE where
  | eps : RE
  | cls : (Char → Bool) → RE
  | seq : RE → RE → RE
  | alt : RE → RE → RE
  | wordB : RE
  | repRange : RE → Nat → Option Nat → RE

/-- ASCII digit, the `\d` class restricted to ASCII. -/
def isDigitC (c : Char) : Bool :=
  decide (48 ≤ c.toNat) && decide (c.toNat ≤ 57)

/-- ASCII uppercase letter, the class `[A-Z]`. -/
def isUpperC (c : Char) : Bool :=
  decide (65 ≤ c.toNat) && decide (c.toNat ≤ 90)

/-- ASCII lowercase letter, the class `[a-z]`. -/
def isLowerC (c : Char) : Bool :=
  decide (97 ≤ c.toNat) && decide (c.toNat ≤ 122)

/-- ASCII letter, the class `[A-Za-z]`. -/
def isAlphaC (c : Char) : Bool :=
  isUpperC c || isLowerC c

/-- ASCII alphanumeric character. -/
def isAlnumC (c : Char) : Bool :=
  isDigitC c || isAlphaC c

/-- Word character, the `\w` class restricted to ASCII. -/
def isWordC (c : Char) : Bool :=
  isAlnumC c || c == '_'

/-- Whitespace, the `\s` class restricted to ASCII. -/
def isSpaceC (c : Char) : Bool :=
  c == ' ' || c == '\t' || c == '\n' || c == '\r' || c.toNat == 11 || c.toNat == 12

/-- Is the position between `prev` and the head of `s` a `\b` word boundary? -/
def atBoundary (prev : Option Char) (s : List Char) : Bool :=
  let pw := match prev with
    | some c => isWordC c
    | none => false
  let nw := match s with
    | c :: _ => isWordC c
    | [] => false
  pw != nw

/-- Decrement an optional repetition bound. -/
def decrMax : Option Nat → Option Nat
  | none => none
  | some n => some (n - 1)

/-- Fuel-bounded backtracking matcher in continuation-passing style.
Tries to match `re` at the current position (`prev` is the character just
before the position, `s` the remaining text); on success of one branch the
continuation `k` receives the new position.  Branches are explored in
leftmost-first priority order: alternations try the left branch first and
repetitions are greedy.  The result of the first succeeding branch wins,
exactly as in the Rust `regex` crate's leftmost-first semantics. -/
def matchCont : Nat → RE → Option Char → List Char →
    (Option Char → List Char → Option (Option Char × List Char)) →
    Option (Option Char × List Char)
  | 0, _, _, _, _ => none
  | Nat.succ fuel, re, prev, s, k =>
    match re with
    | RE.eps => k prev s
    | RE.wordB => if atBoundary prev s then k prev s else none
    | RE.cls p =>
      match s with
      | [] => none
      | c :: rest => if p c then k (some c) rest else none
    | RE.seq a b =>
      matchCont fuel a prev s (fun p2 s2 => matchCont fuel b p2 s2 k)
    | RE.alt a b =>
      match matchCont fuel a prev s k with
      | some r => some r
      | none => matchCont fuel b prev s k
    | RE.repRange r mn mx =>
      match mn with
      | Nat.succ m =>
        matchCont fuel r prev s
          (fun p2 s2 => matchCont fuel (RE.repRange r m (decrMax mx)) p2 s2 k)
      | 0 =>
        match mx with
        | some 0 => k prev s
        | _ =>
          match matchCont fuel r prev s
              (fun p2 s2 => matchCont fuel (RE.repRange r 0 (decrMax mx)) p2 s2 k) with
          | some r2 => some r2
          | none => k prev s

/-- Size of a regular expression, used to choose a sufficient fuel. -/
def reSize : RE → Nat
  | RE.eps => 1
  | RE.cls _ => 1
  | RE.wordB => 1
  | RE.seq a b => reSize a + reSize b + 1
  | RE.alt a b => reSize a + reSize b + 1
  | RE.repRange r _ _ => reSize r + 1

/-- Match `r` at the current position, returning the position after the
leftmost-first match (previous character and remaining text). -/
def matchHere (fuel : Nat) (r : RE) (prev : Option Char) (s : List Char) :
    Option (Option Char × List Char) :=
  matchCont fuel r prev s (fun p2 s2 => some (p2, s2))

/-- Successive non-overlapping leftmost matches, as `(start, length)` pairs,
mirroring `Regex::find_iter`: scan left to right, at each position try the
leftmost-first match; on success record it and resume after its end (an
empty match advances by one character). -/
def findAllAux : Nat → Nat → RE → Option Char → Nat → List Char → List (Nat × Nat)
  | 0, _, _, _, _, _ => []
  | Nat.succ fuel, mfuel, r, prev, pos, s =>
    match matchHere mfuel r prev s with
    | some (p2, rest) =>
      match s.length - rest.length, s with
      | 0, [] => [(pos, 0)]
      | 0, c :: cs => (pos, 0) :: findAllAux fuel mfuel r (some c) (pos + 1) cs
      | Nat.succ l, _ => (pos, Nat.succ l) :: findAllAux fuel mfuel r p2 (pos + Nat.succ l) rest
    | none =>
      match s with
      | [] => []
      | c :: cs => findAllAux fuel mfuel r (some c) (pos + 1) cs

/-- All non-overlapping matches of `r` in `s`, as `(start, length)` pairs. -/
def findAll (r : RE) (s : List Char) : List (Nat × Nat) :=
  findAllAux (s.length + 1) ((reSize r + 2) * (s.length + 2)) r none 0 s

/-- Splice the replacement `ph` over each recorded match.  `off` is the
original index of the head of the current suffix `s`; the match list is
sorted and non-overlapping by construction of `findAll`. -/
def spliceAll (ph : List Char) : List Char → Nat → List (Nat × Nat) → List Char
  | s, _, [] => s
  | s, off, (st, len) :: rest =>
    s.take (st - off) ++ ph ++ spliceAll ph (s.drop (st - off + len)) (st + len) rest

/-- `Regex::replace_all` with a literal replacement string. -/
def replaceAll (r : RE) (ph : List Char) (s : List Char) : List Char :=
  spliceAll ph s 0 (findAll r s)

/-! ## The ten PII patterns (`get_pii_patterns`) -/

/-- Literal single character. -/
def reChar (c : Char) : RE :=
  RE.cls (fun x => x == c)

/-- Character range class such as `[0-5]`. -/
def rangeC (lo hi : Char) : Char → Bool :=
  fun c => decide (lo.toNat ≤ c.toNat) && decide (c.toNat ≤ hi.toNat)

/-- Sequence of a list of expressions. -/
def reSeq (l : List RE) : RE :=
  l.foldr RE.seq RE.eps

/-- Alternation of a list of expressions, preferring earlier entries
(the priority order of `|` in the Rust `regex` crate). -/
def reAlt : List RE → RE
  | [] => RE.cls (fun _ => false)
  | [r] => r
  | r :: rest => RE.alt r (reAlt rest)

/-- Greedy option `r?`. -/
def reOpt (r : RE) : RE :=
  RE.alt r RE.eps

/-- Greedy `r+`. -/
def rePlus (r : RE) : RE :=
  RE.repRange r 1 none

/-- Greedy `r*`. -/
def reStar (r : RE) : RE :=
  RE.repRange r 0 none

/-- Case-sensitive literal string. -/
def litStr (s : String) : RE :=
  reSeq (s.data.map reChar)

/-- Case-insensitive literal string, for the `(?i)` Address pattern. -/
def litStrCI (s : String) : RE :=
  reSeq (s.data.map (fun c => RE.cls (fun x => x.toLower == c.toLower)))

def reDigit : RE := RE.cls isDigitC
def reUpper : RE := RE.cls isUpperC
def reSpace : RE := RE.cls isSpaceC
def reWord : RE := RE.cls isWordC

/-- `\b\d{3}-\d{2}-\d{4}\b` -/
def ssnRE : RE :=
  reSeq [RE.wordB, RE.repRange reDigit 3 (some 3), reChar '-',
    RE.repRange reDigit 2 (some 2), reChar '-',
    RE.repRange reDigit 4 (some 4), RE.wordB]

/-- `[-\s]` -/
def dashSpaceC : RE := RE.cls (fun c => c == '-' || isSpaceC c)

/-- `\b\d{4}[-\s]?\d{4}[-\s]?\d{4}[-\s]?\d{4}\b` -/
def creditCardRE : RE :=
  reSeq [RE.wordB, RE.repRange reDigit 4 (some 4), reOpt dashSpaceC,
    RE.repRange reDigit 4 (some 4), reOpt dashSpaceC,
    RE.repRange reDigit 4 (some 4), reOpt dashSpaceC,
    RE.repRange reDigit 4 (some 4), RE.wordB]

/-- `[A-Za-z0-9._%+-]` -/
def emailLocalC (c : Char) : Bool :=
  isAlnumC c || c == '.' || c == '_' || c == '%' || c == '+' || c == '-'

/-- `[A-Za-z0-9.-]` -/
def emailDomainC (c : Char) : Bool :=
  isAlnumC c || c == '.' || c == '-'

/-- `\b[A-Za-z0-9._%+-]+@[A-Za-z0-9.-]+\.[A-Za-z]{2,}\b` -/
def emailRE : RE :=
  reSeq [RE.wordB, rePlus (RE.cls emailLocalC), reChar '@',
    rePlus (RE.cls emailDomainC), reChar '.',
    RE.repRange (RE.cls isAlphaC) 2 none, RE.wordB]

/-- `[-.\s]` -/
def phoneSepC : RE := RE.cls (fun c => c == '-' || c == '.' || isSpaceC c)

/-- `\b(?:\+?1[-.\s]?)?\(?\d{3}\)?[-.\s]?\d{3}[-.\s]?\d{4}\b` -/
def phoneRE : RE :=
  reSeq [RE.wordB,
    reOpt (reSeq [reOpt (reChar '+'), reChar '1', reOpt phoneSepC]),
    reOpt (reChar '('), RE.repRange reDigit 3 (some 3), reOpt (reChar ')'),
    reOpt phoneSepC, RE.repRange reDigit 3 (some 3),
    reOpt phoneSepC, RE.repRange reDigit 4 (some 4), RE.wordB]

/-- The alternation `Street|St|Avenue|Ave|Road|Rd|Boulevard|Blvd|Drive|Dr|Lane|Ln|Court|Ct|Way|Place|Pl`, in source order. -/
def streetSuffixRE : RE :=
  reAlt (["Street", "St", "Avenue", "Ave", "Road", "Rd", "Boulevard", "Blvd",
    "Drive", "Dr", "Lane", "Ln", "Court", "Ct", "Way", "Place", "Pl"].map litStrCI)

/-- `(?i)\b\d{1,5}\s+\w+(?:\s+\w+)*\s+(?:Street|St|...|Pl)\b` -/
def addressRE : RE :=
  reSeq [RE.wordB, RE.repRange reDigit 1 (some 5), rePlus reSpace, rePlus reWord,
    reStar (reSeq [rePlus reSpace, rePlus reWord]), rePlus reSpace,
    streetSuffixRE, RE.wordB]

/-- `25[0-5]|2[0-4][0-9]|[01]?[0-9][0-9]?`, one IPv4 octet. -/
def ipOctetRE : RE :=
  reAlt [reSeq [reChar '2', reChar '5', RE.cls (rangeC '0' '5')],
    reSeq [reChar '2', RE.cls (rangeC '0' '4'), reDigit],
    reSeq [reOpt (RE.cls (fun c => c == '0' || c == '1')), reDigit, reOpt reDigit]]

/-- `\b(?:(?:25[0-5]|2[0-4][0-9]|[01]?[0-9][0-9]?)\.){3}(?:25[0-5]|2[0-4][0-9]|[01]?[0-9][0-9]?)\b` -/
def ipAddressRE : RE :=
  reSeq [RE.wordB, RE.repRange (reSeq [ipOctetRE, reChar '.']) 3 (some 3),
    ipOctetRE, RE.wordB]

/-- `\b(?:0[1-9]|1[0-2])/(?:0[1-9]|[12]\d|3[01])/(?:19|20)\d{2}\b` -/
def dateOfBirthRE : RE :=
  reSeq [RE.wordB,
    reAlt [reSeq [reChar '0', RE.cls (rangeC '1' '9')],
      reSeq [reChar '1', RE.cls (rangeC '0' '2')]],
    reChar '/',
    reAlt [reSeq [reChar '0', RE.cls (rangeC '1' '9')],
      reSeq [RE.cls (fun c => c == '1' || c == '2'), reDigit],
      reSeq [reChar '3', RE.cls (fun c => c == '0' || c == '1')]],
    reChar '/',
    reAlt [litStr "19", litStr "20"],
    RE.repRange reDigit 2 (some 2), RE.wordB]

/-- `\b[A-Z]{1,2}\d{6,9}\b` -/
def passportRE : RE :=
  reSeq [RE.wordB, RE.repRange reUpper 1 (some 2),
    RE.repRange reDigit 6 (some 9), RE.wordB]

/-- `\b[A-Z]\d{7,14}\b` -/
def driversLicenseRE : RE :=
  reSeq [RE.wordB, reUpper, RE.repRange reDigit 7 (some 14), RE.wordB]

/-- `\b\d{8,17}\b` -/
def bankAccountRE : RE :=
  reSeq [RE.wordB, RE.repRange reDigit 8 (some 17), RE.wordB]

/-! ## Data model -/

/-- Types of PII that can be detected (`PIIType`). -/
inductive PIIType where
  | Ssn
  | CreditCard
  | Email
  | Phone
  | Address
  | IpAddress
  | DateOfBirth
  | Passport
  | DriversLicense
  | BankAccount
deriving DecidableEq, Repr

/-- `PIIType::redaction`: the redaction placeholder for this PII type. -/
def PIIType.redaction : PIIType → String
  | PIIType.Ssn => "[SSN_REDACTED]"
  | PIIType.CreditCard => "[CARD_REDACTED]"
  | PIIType.Email => "[EMAIL_REDACTED]"
  | PIIType.Phone => "[PHONE_REDACTED]"
  | PIIType.Address => "[ADDRESS_REDACTED]"
  | PIIType.IpAddress => "[IP_REDACTED]"
  | PIIType.DateOfBirth => "[DOB_REDACTED]"
  | PIIType.Passport => "[PASSPORT_REDACTED]"
  | PIIType.DriversLicense => "[DL_REDACTED]"
  | PIIType.BankAccount => "[ACCOUNT_REDACTED]"

/-- Governance action to take (`GovernanceAction`); `Default` is `Redact`. -/
inductive GovernanceAction where
  | Allow
  | Deny
  | Redact
  | Escalate
deriving DecidableEq, Repr

/-- A single PII match found in text (`PIIMatch`). -/
structure PIIMatch where
  pii_type : PIIType
  value : String
  start_index : Nat
  end_index : Nat
deriving DecidableEq, Repr

/-- Result of PII detection (`PIIDetectionResult`). -/
structure PIIDetectionResult where
  has_pii : Bool
  types : List PIIType
  count : Nat
  «matches» : List PIIMatch
  redacted_text : String
deriving DecidableEq, Repr

/-- Cryptographic receipt for audit trail (`GovernanceReceipt`).  The
timestamp is an opaque time value supplied by the caller of the model. -/
structure GovernanceReceipt where
  receipt_id : String
  timestamp : Nat
  input_hash : String
  output_hash : String
  action : GovernanceAction
  policy_version : String
  processing_time_ns : Nat
deriving DecidableEq, Repr

/-- Result of a governance operation (`GovernanceResult`). -/
structure GovernanceResult where
  action : GovernanceAction
  output : String
  pii : PIIDetectionResult
  receipt : GovernanceReceipt
deriving DecidableEq, Repr

/-- Configuration for a Tork instance (`TorkConfig`). -/
structure TorkConfig where
  policy_version : String
  default_action : GovernanceAction
deriving DecidableEq, Repr

/-- `TorkConfig::default()`. -/
def TorkConfig.default : TorkConfig :=
  ⟨"1.0.0", GovernanceAction.Redact⟩

/-- Per-action counters (`ActionCounts`). -/
structure ActionCounts where
  allow : Nat
  deny : Nat
  redact : Nat
  escalate : Nat
deriving DecidableEq, Repr

/-- Statistics for a Tork instance (`TorkStats`). -/
structure TorkStats where
  total_calls : Nat
  total_pii_detected : Nat
  total_processing_time_ns : Nat
  action_counts : ActionCounts
deriving DecidableEq, Repr

/-- `TorkStats::default()`: everything zeroed. -/
def TorkStats.default : TorkStats :=
  ⟨0, 0, 0, ⟨0, 0, 0, 0⟩⟩

/-- A registry entry (`PIIPattern`). -/
structure PIIPattern where
  pii_type : PIIType
  regex : RE

/-- `get_pii_patterns()`: the ordered pattern registry. -/
def get_pii_patterns : List PIIPattern :=
  [⟨PIIType.Ssn, ssnRE⟩,
   ⟨PIIType.CreditCard, creditCardRE⟩,
   ⟨PIIType.Email, emailRE⟩,
   ⟨PIIType.Phone, phoneRE⟩,
   ⟨PIIType.Address, addressRE⟩,
   ⟨PIIType.IpAddress, ipAddressRE⟩,
   ⟨PIIType.DateOfBirth, dateOfBirthRE⟩,
   ⟨PIIType.Passport, passportRE⟩,
   ⟨PIIType.DriversLicense, driversLicenseRE⟩,
   ⟨PIIType.BankAccount, bankAccountRE⟩]

/-! ## PII detection -/

/-- The matches one pattern contributes: `regex.find_iter(text)` over the
original input, each with its matched substring and offsets. -/
def patternMatches (orig : List Char) (pattern : PIIPattern) : List PIIMatch :=
  (findAll pattern.regex orig).map (fun m =>
    ⟨pattern.pii_type, String.mk ((orig.drop m.1).take m.2), m.1, m.1 + m.2⟩)

/-- `HashSet::insert` observed through iteration: keep one copy of each
inserted type (iteration order of the Rust `HashSet` is unspecified; the
model fixes first-insertion order). -/
def insertType (ts : List PIIType) (t : PIIType) : List PIIType :=
  if ts.contains t then ts else ts ++ [t]

/-- One iteration of the pattern loop of `detect_pii`: record this
pattern's matches against the original text, then redact this pattern in
the working copy.  State: (matches, detected types, working copy). -/
def detectStep (orig : List Char)
    (st : List PIIMatch × List PIIType × List Char) (pattern : PIIPattern) :
    List PIIMatch × List PIIType × List Char :=
  let found := findAll pattern.regex orig
  (st.1 ++ patternMatches orig pattern,
   found.foldl (fun ts _ => insertType ts pattern.pii_type) st.2.1,
   replaceAll pattern.regex (pattern.pii_type.redaction).data st.2.2)

/-- `detect_pii`: detect PII in text and return detection results with
redacted text. -/
def detect_pii (text : String) : PIIDetectionResult :=
  let res := get_pii_patterns.foldl (detectStep text.data) ([], [], text.data)
  ⟨!res.1.isEmpty, res.2.1, res.1.length, res.1, String.mk res.2.2⟩

/-! ## SHA-256 (the `sha2` crate's `Sha256`, FIPS 180-4)

Words are natural numbers kept below `2 ^ 32`; messages and digests are
lists of bytes (natural numbers below 256). -/

/-- Reduce modulo `2 ^ 32`. -/
def m32 (x : Nat) : Nat :=
  x % 4294967296

/-- Rotate a 32-bit word right by `n`. -/
def rotr (n x : Nat) : Nat :=
  x / 2 ^ n + x % 2 ^ n * 2 ^ (32 - n)

/-- Logical shift right by `n`. -/
def shr (n x : Nat) : Nat :=
  x / 2 ^ n

/-- `Ch(e, f, g)`. -/
def shaCh (e f g : Nat) : Nat :=
  (e &&& f) ^^^ ((4294967295 ^^^ e) &&& g)

/-- `Maj(a, b, c)`. -/
def shaMaj (a b c : Nat) : Nat :=
  (a &&& b) ^^^ (a &&& c) ^^^ (b &&& c)

/-- `Σ₀`. -/
def bigSigma0 (x : Nat) : Nat :=
  rotr 2 x ^^^ rotr 13 x ^^^ rotr 22 x

/-- `Σ₁`. -/
def bigSigma1 (x : Nat) : Nat :=
  rotr 6 x ^^^ rotr 11 x ^^^ rotr 25 x

/-- `σ₀`. -/
def smallSigma0 (x : Nat) : Nat :=
  rotr 7 x ^^^ rotr 18 x ^^^ shr 3 x

/-- `σ₁`. -/
def smallSigma1 (x : Nat) : Nat :=
  rotr 17 x ^^^ rotr 19 x ^^^ shr 10 x

/-- The 64 SHA-256 round constants of FIPS 180-4, written in decimal. -/
def sha256K : List Nat :=
  [1116352408, 1899447441, 3049323471, 3921009573, 961987163,
   1508970993, 2453635748, 2870763221, 3624381080, 310598401,
   607225278, 1426881987, 1925078388, 2162078206, 2614888103,
   3248222580, 3835390401, 4022224774, 264347078, 604807628,
   770255983, 1249150122, 1555081692, 1996064986, 2554220882,
   2821834349, 2952996808, 3210313671, 3336571891, 3584528711,
   113926993, 338241895, 666307205, 773529912, 1294757372,
   1396182291, 1695183700, 1986661051, 2177026350, 2456956037,
   2730485921, 2820302411, 3259730800, 3345764771, 3516065817,
   3600352804, 4094571909, 275423344, 430227734, 506948616,
   659060556, 883997877, 958139571, 1322822218, 1537002063,
   1747873779, 1955562222, 2024104815, 2227730452, 2361852424,
   2428436474, 2756734187, 3204031479, 3329325298]

/-- The eight 32-bit working variables of the compression function. -/
structure Hash8 where
  a : Nat
  b : Nat
  c : Nat
  d : Nat
  e : Nat
  f : Nat
  g : Nat
  h : Nat

/-- The SHA-256 initial hash value of FIPS 180-4, written in decimal. -/
def sha256H0 : Hash8 :=
  ⟨1779033703, 3144134277, 1013904242, 2773480762,
   1359893119, 2600822924, 528734635, 1541459225⟩

/-- `v` rendered as `n` big-endian bytes. -/
def beBytes (n v : Nat) : List Nat :=
  (List.range n).map (fun i => v / 2 ^ (8 * (n - 1 - i)) % 256)

/-- SHA-256 padding: append `0x80`, zeros and the 64-bit big-endian bit
length so the total length is a multiple of 64 bytes. -/
def sha256pad (msg : List Nat) : List Nat :=
  let L := msg.length
  msg ++ [0x80] ++ List.replicate ((119 - L % 64) % 64) 0 ++ beBytes 8 (8 * L)

/-- Group bytes into big-endian 32-bit words. -/
def bytesToWords : List Nat → List Nat
  | b0 :: b1 :: b2 :: b3 :: rest => (((b0 * 256 + b1) * 256 + b2) * 256 + b3) :: bytesToWords rest
  | _ => []

/-- Split a byte list into 64-byte blocks. -/
def toBlocks (l : List Nat) : List (List Nat)  :=
  match l with
  | [] => []
  | c :: rest => (c :: rest).take 64 :: toBlocks (rest.drop 63)
termination_by l.length
decreasing_by simp [List.length_drop]; omega

/-- Extend the 16 message words to the 64-entry message schedule,
appending `n` further words. -/
def extendW : Nat → List Nat → List Nat
  | 0, w => w
  | Nat.succ n, w =>
    let ln := w.length
    extendW n (w ++ [m32 (smallSigma1 (w.getD (ln - 2) 0) + w.getD (ln - 7) 0 +
      smallSigma0 (w.getD (ln - 15) 0) + w.getD (ln - 16) 0)])

/-- One SHA-256 round. -/
def sha256round (st : Hash8) (kw : Nat × Nat) : Hash8 :=
  let t1 := m32 (st.h + bigSigma1 st.e + shaCh st.e st.f st.g + kw.1 + kw.2)
  let t2 := m32 (bigSigma0 st.a + shaMaj st.a st.b st.c)
  ⟨m32 (t1 + t2), st.a, st.b, st.c, m32 (st.d + t1), st.e, st.f, st.g⟩

/-- Compress one 64-byte block into the running hash value. -/
def compressBlock (h0 : Hash8) (block : List Nat) : Hash8 :=
  let w := extendW 48 (bytesToWords block)
  let st := (sha256K.zip w).foldl sha256round h0
  ⟨m32 (h0.a + st.a), m32 (h0.b + st.b), m32 (h0.c + st.c), m32 (h0.d + st.d),
   m32 (h0.e + st.e), m32 (h0.f + st.f), m32 (h0.g + st.g), m32 (h0.h + st.h)⟩

/-- The 32-byte big-endian digest of a final hash value. -/
def hashBytes (st : Hash8) : List Nat :=
  beBytes 4 st.a ++ beBytes 4 st.b ++ beBytes 4 st.c ++ beBytes 4 st.d ++
  beBytes 4 st.e ++ beBytes 4 st.f ++ beBytes 4 st.g ++ beBytes 4 st.h

/-- SHA-256 of a byte sequence. -/
def sha256 (msg : List Nat) : List Nat :=
  hashBytes ((toBlocks (sha256pad msg)).foldl compressBlock sha256H0)

/-- The UTF-8 bytes of one character (`str::as_bytes` per scalar value). -/
def utf8Bytes (c : Char) : List Nat :=
  let n := c.toNat
  if n < 128 then [n]
  else if n < 2048 then [192 + n / 64, 128 + n % 64]
  else if n < 65536 then [224 + n / 4096, 128 + n / 64 % 64, 128 + n % 64]
  else [240 + n / 262144, 128 + n / 4096 % 64, 128 + n / 64 % 64, 128 + n % 64]

/-- The UTF-8 byte sequence of a string (`text.as_bytes()`). -/
def strBytes (s : String) : List Nat :=
  s.data.foldr (fun c acc => utf8Bytes c ++ acc) []

/-- One lowercase hexadecimal digit. -/
def hexDigit (n : Nat) : Char :=
  Char.ofNat (if n < 10 then 48 + n else 87 + n)

/-- Lowercase hexadecimal rendering of a byte sequence (`hex::encode`). -/
def hexEncode : List Nat → List Char
  | [] => []
  | b :: rest => hexDigit (b / 16) :: hexDigit (b % 16) :: hexEncode rest

/-! ## Utility functions -/

/-- `hash_text`: SHA-256 of the text's UTF-8 bytes, rendered as lowercase
hex with the prefix `"sha256:"`. -/
def hash_text (text : String) : String :=
  String.mk ("sha256:".data ++ hexEncode (sha256 (strBytes text)))

/-- `generate_receipt_id`: `"rcpt_"` followed by the hyphen-free rendering
of a freshly drawn v4 UUID.  The UUID is a random effect of the Rust code
(`Uuid::new_v4().to_string()`) and enters the model as the parameter. -/
def generate_receipt_id (uuid : String) : String :=
  String.mk ("rcpt_".data ++ uuid.data.filter (fun c => c != '-'))

/-! ## The Tork engine -/

/-- Main Tork governance struct (`Tork`). -/
structure Tork where
  config : TorkConfig
  stats : TorkStats
  patterns : List PIIPattern

/-- `Tork::new()`: default configuration, zeroed statistics, the fixed
pattern registry. -/
def Tork.new : Tork :=
  ⟨TorkConfig.default, TorkStats.default, get_pii_patterns⟩

/-- `Tork::with_config(config)`. -/
def Tork.with_config (config : TorkConfig) : Tork :=
  ⟨config, TorkStats.default, get_pii_patterns⟩

/-- One iteration of the pattern loop of `Tork::detect_pii_internal`
(the verbatim twin of `detectStep`). -/
def detectStepInternal (orig : List Char)
    (st : List PIIMatch × List PIIType × List Char) (pattern : PIIPattern) :
    List PIIMatch × List PIIType × List Char :=
  let found := findAll pattern.regex orig
  (st.1 ++ patternMatches orig pattern,
   found.foldl (fun ts _ => insertType ts pattern.pii_type) st.2.1,
   replaceAll pattern.regex (pattern.pii_type.redaction).data st.2.2)

/-- `Tork::detect_pii_internal`: PII detection using the cached patterns. -/
def Tork.detect_pii_internal (t : Tork) (text : String) : PIIDetectionResult :=
  let res := t.patterns.foldl (detectStepInternal text.data) ([], [], text.data)
  ⟨!res.1.isEmpty, res.2.1, res.1.length, res.1, String.mk res.2.2⟩

/-- `Tork::govern`: apply governance to input text.  The measured elapsed
time, the current time and the drawn UUID are effects of the Rust code and
enter the model as the parameters `elapsed_ns`, `now` and `uuid`; the
returned pair is (result, engine after the call). -/
def Tork.govern (t : Tork) (input : String) (elapsed_ns : Nat) (now : Nat)
    (uuid : String) : GovernanceResult × Tork :=
  let pii := t.detect_pii_internal input
  let action_output : GovernanceAction × String :=
    if pii.has_pii then
      let action := t.config.default_action
      let output :=
        match action with
        | GovernanceAction.Redact => pii.redacted_text
        | _ => input
      (action, output)
    else
      (GovernanceAction.Allow, input)
  let action := action_output.1
  let output := action_output.2
  let receipt : GovernanceReceipt :=
    ⟨generate_receipt_id uuid, now, hash_text input, hash_text output,
     action, t.config.policy_version, elapsed_ns⟩
  let stats1 := { t.stats with total_calls := t.stats.total_calls + 1 }
  let stats2 :=
    if pii.has_pii then
      { stats1 with total_pii_detected := stats1.total_pii_detected + 1 }
    else stats1
  let stats3 :=
    { stats2 with total_processing_time_ns := stats2.total_processing_time_ns + elapsed_ns }
  let stats4 :=
    match action with
    | GovernanceAction.Allow =>
      { stats3 with action_counts := { stats3.action_counts with allow := stats3.action_counts.allow + 1 } }
    | GovernanceAction.Deny =>
      { stats3 with action_counts := { stats3.action_counts with deny := stats3.action_counts.deny + 1 } }
    | GovernanceAction.Redact =>
      { stats3 with action_counts := { stats3.action_counts with redact := stats3.action_counts.redact + 1 } }
    | GovernanceAction.Escalate =>
      { stats3 with action_counts := { stats3.action_counts with escalate := stats3.action_counts.escalate + 1 } }
  (⟨action, output, pii, receipt⟩, { t with stats := stats4 })

/-- `Tork::get_stats`. -/
def Tork.get_stats (t : Tork) : TorkStats :=
  t.stats

/-- `Tork::reset_stats`. -/
def Tork.reset_stats (t : Tork) : Tork :=
  { t with stats := TorkStats.default }

/-- `Tork::get_config`. -/
def Tork.get_config (t : Tork) : TorkConfig :=
  t.config

/-- `Tork::set_config`. -/
def Tork.set_config (t : Tork) (config : TorkConfig) : Tork :=
  { t with config := config }

/-! ## Helper lemmas about the detector -/

/-- Splicing no matches leaves the text unchanged. -/
theorem spliceAll_nil (ph s : List Char) (off : Nat) : spliceAll ph s off [] = s :=
  rfl

/-- `replace_all` is the identity when the pattern has no match. -/
theorem replaceAll_eq_of_no_match (r : RE) (ph s : List Char)
    (h : findAll r s = []) : replaceAll r ph s = s := by
  unfold replaceAll
  rw [h]
  exact spliceAll_nil ph s 0

/-- The matches the whole registry records against a fixed original text,
pattern by pattern in registry order. -/
def allPatternMatches (orig : List Char) : List PIIPattern → List PIIMatch
  | [] => []
  | p :: ps => patternMatches orig p ++ allPatternMatches orig ps

/-- The match accumulator of the detection loop is the concatenation of the
per-pattern matches against the original text: each pattern is scanned
against `orig`, never against the working copy. -/
theorem detect_foldl_matches (orig : List Char) (ps : List PIIPattern) :
    ∀ st : List PIIMatch × List PIIType × List Char,
    (ps.foldl (detectStep orig) st).1 = st.1 ++ allPatternMatches orig ps := by
  induction ps with
  | nil => intro st; simp [allPatternMatches]
  | cons p ps ih =>
    intro st
    simp only [List.foldl_cons, ih, allPatternMatches]
    simp [detectStep, List.append_assoc]

/-- If no pattern matches the original text, the working copy of the
detection loop never changes. -/
theorem detect_foldl_redacted (orig : List Char) (ps : List PIIPattern)
    (h : ∀ p ∈ ps, findAll p.regex orig = []) :
    ∀ st : List PIIMatch × List PIIType × List Char, st.2.2 = orig →
    (ps.foldl (detectStep orig) st).2.2 = orig := by
  induction ps with
  | nil => intro st hst; simpa using hst
  | cons p ps ih =>
    intro st hst
    have hp : findAll p.regex orig = [] := h p (List.mem_cons_self p ps)
    have hstep : (detectStep orig st p).2.2 = orig := by
      simp [detectStep, hst, replaceAll_eq_of_no_match _ _ _ hp]
    exact ih (fun q hq => h q (List.mem_cons_of_mem p hq)) _ hstep

/-- If the registry as a whole records no match, each single pattern finds
nothing in the original text. -/
theorem allPatternMatches_eq_nil (orig : List Char) (ps : List PIIPattern)
    (h : allPatternMatches orig ps = []) :
    ∀ p ∈ ps, findAll p.regex orig = [] := by
  induction ps with
  | nil => intro p hp; cases hp
  | cons p ps ih =>
    intro q hq
    rw [allPatternMatches, List.append_eq_nil] at h
    rcases List.mem_cons.1 hq with hq | hq
    · subst hq
      have := h.1
      unfold patternMatches at this
      exact List.map_eq_nil_iff.1 this
    · exact ih h.2 q hq

/-- `detect_pii` records exactly the per-pattern matches found in the
original input text, in registry order. -/
theorem detect_pii_matches_spec (text : String) :
    (detect_pii text).«matches» = allPatternMatches text.data get_pii_patterns := by
  show (get_pii_patterns.foldl (detectStep text.data) ([], [], text.data)).1 = _
  rw [detect_foldl_matches]
  rfl

/-- `has_pii` is the emptiness flag of the recorded matches. -/
theorem detect_pii_has_pii_spec (text : String) :
    (detect_pii text).has_pii = !(detect_pii text).«matches».isEmpty := by
  simp only [detect_pii]

/-! ## Claims about the detector -/

/-- C9: the standalone `detect_pii` and the engine's internal detection
return identical results on every input, for any engine whose pattern
field holds the registry (as both constructors produce). -/
theorem c9_internal_matches_standalone (cfg : TorkConfig) (stats : TorkStats)
    (text : String) :
    Tork.detect_pii_internal ⟨cfg, stats, get_pii_patterns⟩ text = detect_pii text :=
  rfl

/-- C10: on input where no pattern matches, the redacted text is the
original input unchanged. -/
theorem c10_no_match_redaction_identity (text : String)
    (h : (detect_pii text).has_pii = false) :
    (detect_pii text).redacted_text = text := by
  have hm : (detect_pii text).«matches» = [] := by
    rw [detect_pii_has_pii_spec] at h
    simpa using h
  rw [detect_pii_matches_spec] at hm
  have hall := allPatternMatches_eq_nil text.data get_pii_patterns hm
  show String.mk (get_pii_patterns.foldl (detectStep text.data) ([], [], text.data)).2.2 = text
  rw [detect_foldl_redacted text.data get_pii_patterns hall ([], [], text.data) rfl]

/-- Witness for C10 at a concrete PII-free input. -/
theorem c10_no_match_redaction_identity_witness :
    (detect_pii "Hello world, no sensitive data here.").has_pii = false ∧
    (detect_pii "Hello world, no sensitive data here.").redacted_text =
      "Hello world, no sensitive data here." :=
  ⟨by decide, c10_no_match_redaction_identity "Hello world, no sensitive data here." (by decide)⟩

/-- C1 counterexample: on the input "A1234567" two different categories
(Passport and DriversLicense) both record a match over the same literal
characters of the original input, the range [0, 8).  The claim that a
later pattern never produces a match over characters already replaced by an
earlier pattern is therefore false: match collection always scans the
original input, not the partially redacted working copy. -/
theorem c1_two_categories_same_chars_counterexample :
    (detect_pii "A1234567").«matches».map (fun m => (m.pii_type, m.start_index, m.end_index)) =
      [(PIIType.Passport, 0, 8), (PIIType.DriversLicense, 0, 8)] ∧
    (detect_pii "A1234567").redacted_text = "[PASSPORT_REDACTED]" := by
  decide

/-- C1 (amended): every pattern of the registry is scanned against the
original input text — the recorded matches are exactly the concatenation,
in registry order, of each pattern's matches in the original input.  Only
the redaction pass is cumulative, so categories can double-record matches
over the same literal characters. -/
theorem c1_matches_scanned_from_original (text : String) :
    (detect_pii text).«matches» = allPatternMatches text.data get_pii_patterns :=
  detect_pii_matches_spec text

/-- C8: on "SSN: 123-45-6789, Email: test@test.com" the detector records
exactly two matches and exactly the categories Ssn and Email. -/
theorem c8_multi_category_detection :
    (detect_pii "SSN: 123-45-6789, Email: test@test.com").count = 2 ∧
    (detect_pii "SSN: 123-45-6789, Email: test@test.com").types = [PIIType.Ssn, PIIType.Email] := by
  decide

/-- C2: output equals redacted text exactly when the action is Redact;
for every other action the output is the original input. -/
theorem c2_output_matches_action (t : Tork) (input : String)
    (elapsed_ns now : Nat) (uuid : String) :
    (t.govern input elapsed_ns now uuid).1.output =
      if (t.govern input elapsed_ns now uuid).1.action = GovernanceAction.Redact
      then (t.govern input elapsed_ns now uuid).1.pii.redacted_text
      else input := by
  cases hp : (t.detect_pii_internal input).has_pii with
  | false => simp [Tork.govern, hp]
  | true =>
    cases hd : t.config.default_action with
    | Allow => simp [Tork.govern, hp, hd]
    | Deny => simp [Tork.govern, hp, hd]
    | Redact => simp [Tork.govern, hp, hd]
    | Escalate => simp [Tork.govern, hp, hd]

/-- Filtering with a predicate yields a list on which it holds everywhere. -/
theorem list_all_filter {α : Type} (p : α → Bool) (l : List α) :
    (l.filter p).all p = true := by
  rw [List.all_eq_true]
  intro x hx
  exact (List.mem_filter.1 hx).2

/-- Receipt ids start with the fixed prefix "rcpt_". -/
theorem generate_receipt_id_take (u : String) :
    (generate_receipt_id u).data.take 5 = "rcpt_".data := by
  show ("rcpt_".data ++ u.data.filter (fun c => c != '-')).take 5 = "rcpt_".data
  have h5 : ("rcpt_".data : List Char).length = 5 := rfl
  rw [← h5, List.take_left]

/-- The identifier part of a receipt id contains no hyphen separator. -/
theorem generate_receipt_id_drop_all (u : String) :
    ((generate_receipt_id u).data.drop 5).all (fun c => c != '-') = true := by
  show (("rcpt_".data ++ u.data.filter (fun c => c != '-')).drop 5).all _ = true
  have h5 : ("rcpt_".data : List Char).length = 5 := rfl
  rw [← h5, List.drop_left]
  exact list_all_filter _ _

/-- C3: on input in which the detector finds no PII, govern returns action
Allow and the unchanged input, whatever the configured default action. -/
theorem c3_no_pii_allows (cfg : TorkConfig) (stats : TorkStats) (input : String)
    (elapsed_ns now : Nat) (uuid : String)
    (h : (detect_pii input).has_pii = false) :
    (Tork.govern ⟨cfg, stats, get_pii_patterns⟩ input elapsed_ns now uuid).1.action =
      GovernanceAction.Allow ∧
    (Tork.govern ⟨cfg, stats, get_pii_patterns⟩ input elapsed_ns now uuid).1.output = input := by
  have he : Tork.detect_pii_internal ⟨cfg, stats, get_pii_patterns⟩ input = detect_pii input := rfl
  constructor <;> simp [Tork.govern, he, h]

/-- Witness for C3 at a concrete PII-free input. -/
theorem c3_no_pii_allows_witness :
    (detect_pii "just some text").has_pii = false ∧
    ((Tork.govern ⟨TorkConfig.default, TorkStats.default, get_pii_patterns⟩
        "just some text" 3 9 "u-1").1.action = GovernanceAction.Allow ∧
      (Tork.govern ⟨TorkConfig.default, TorkStats.default, get_pii_patterns⟩
        "just some text" 3 9 "u-1").1.output = "just some text") :=
  ⟨by decide, c3_no_pii_allows TorkConfig.default TorkStats.default "just some text" 3 9 "u-1" (by decide)⟩

/-- C4: govern is total and never invents output text. -/
theorem c4_govern_total (t : Tork) (input : String) (elapsed_ns now : Nat) (uuid : String) :
    ∃ r : GovernanceResult × Tork, t.govern input elapsed_ns now uuid = r ∧
      (r.1.output = input ∨ r.1.output = r.1.pii.redacted_text) := by
  refine ⟨t.govern input elapsed_ns now uuid, rfl, ?_⟩
  cases hp : (t.detect_pii_internal input).has_pii with
  | false => left; simp [Tork.govern, hp]
  | true =>
    cases hd : t.config.default_action with
    | Allow => left; simp [Tork.govern, hp, hd]
    | Deny => left; simp [Tork.govern, hp, hd]
    | Redact => right; simp [Tork.govern, hp, hd]
    | Escalate => left; simp [Tork.govern, hp, hd]

/-- C7: receipt field correctness. -/
theorem c7_receipt_fields (t : Tork) (input : String) (elapsed_ns now : Nat) (uuid : String) :
    (t.govern input elapsed_ns now uuid).1.receipt.input_hash = hash_text input ∧
    (t.govern input elapsed_ns now uuid).1.receipt.output_hash =
      hash_text (t.govern input elapsed_ns now uuid).1.output ∧
    (t.govern input elapsed_ns now uuid).1.receipt.action =
      (t.govern input elapsed_ns now uuid).1.action ∧
    (t.govern input elapsed_ns now uuid).1.receipt.policy_version = t.config.policy_version ∧
    (t.govern input elapsed_ns now uuid).1.receipt.processing_time_ns = elapsed_ns ∧
    (t.govern input elapsed_ns now uuid).1.receipt.receipt_id.data.take 5 = "rcpt_".data ∧
    ((t.govern input elapsed_ns now uuid).1.receipt.receipt_id.data.drop 5).all
      (fun c => c != '-') = true := by
  refine ⟨?_, ?_, ?_, ?_, ?_, ?_, ?_⟩ <;>
    simp [Tork.govern, generate_receipt_id_take, generate_receipt_id_drop_all]

/-- C5: statistics update per call, and reset. -/
theorem c5_stats_update (t : Tork) (input : String) (elapsed_ns now : Nat) (uuid : String) :
    ((t.govern input elapsed_ns now uuid).2.stats.total_calls = t.stats.total_calls + 1 ∧
     (t.govern input elapsed_ns now uuid).2.stats.total_pii_detected =
       t.stats.total_pii_detected +
         (if (t.govern input elapsed_ns now uuid).1.pii.has_pii then 1 else 0) ∧
     (t.govern input elapsed_ns now uuid).2.stats.total_processing_time_ns =
       t.stats.total_processing_time_ns + elapsed_ns) ∧
    ((t.govern input elapsed_ns now uuid).2.stats.action_counts.allow =
       t.stats.action_counts.allow +
         (if (t.govern input elapsed_ns now uuid).1.action = GovernanceAction.Allow then 1 else 0) ∧
     (t.govern input elapsed_ns now uuid).2.stats.action_counts.deny =
       t.stats.action_counts.deny +
         (if (t.govern input elapsed_ns now uuid).1.action = GovernanceAction.Deny then 1 else 0) ∧
     (t.govern input elapsed_ns now uuid).2.stats.action_counts.redact =
       t.stats.action_counts.redact +
         (if (t.govern input elapsed_ns now uuid).1.action = GovernanceAction.Redact then 1 else 0) ∧
     (t.govern input elapsed_ns now uuid).2.stats.action_counts.escalate =
       t.stats.action_counts.escalate +
         (if (t.govern input elapsed_ns now uuid).1.action = GovernanceAction.Escalate then 1 else 0)) ∧
    (∀ t2 : Tork, t2.reset_stats.stats = TorkStats.default) := by
  refine ⟨⟨?_, ?_, ?_⟩, ⟨?_, ?_, ?_, ?_⟩, fun t2 => rfl⟩ <;>
  · cases hp : (t.detect_pii_internal input).has_pii with
    | false => simp [Tork.govern, hp]
    | true =>
      cases hd : t.config.default_action with
      | Allow => simp [Tork.govern, hp, hd]
      | Deny => simp [Tork.govern, hp, hd]
      | Redact => simp [Tork.govern, hp, hd]
      | Escalate => simp [Tork.govern, hp, hd]

/-! ## Digest format lemmas -/

theorem hexEncode_length (bs : List Nat) : (hexEncode bs).length = 2 * bs.length := by
  induction bs with
  | nil => rfl
  | cons b rest ih => simp [hexEncode, ih]; omega

theorem beBytes_length (n v : Nat) : (beBytes n v).length = n := by
  simp [beBytes]

theorem sha256_length (m : List Nat) : (sha256 m).length = 32 := by
  simp [sha256, hashBytes, beBytes_length]

theorem beBytes_lt (n v : Nat) : ∀ x ∈ beBytes n v, x < 256 := by
  intro x hx
  simp only [beBytes, List.mem_map] at hx
  obtain ⟨i, _, h⟩ := hx
  rw [← h]
  exact Nat.mod_lt _ (by omega)

theorem sha256_bytes_lt (m : List Nat) : ∀ b ∈ sha256 m, b < 256 := by
  intro b hb
  simp only [sha256, hashBytes, List.mem_append] at hb
  rcases hb with ((((((h | h) | h) | h) | h) | h) | h) | h <;> exact beBytes_lt _ _ b h

/-- A lowercase hexadecimal digit: `0`-`9` or `a`-`f`. -/
def isLowerHexC (c : Char) : Bool :=
  isDigitC c || (decide (97 ≤ c.toNat) && decide (c.toNat ≤ 102))

theorem hexDigit_lowerHex (n : Nat) (h : n < 16) : isLowerHexC (hexDigit n) = true := by
  interval_cases n <;> decide

theorem hexEncode_all_lowerHex (bs : List Nat) (h : ∀ b ∈ bs, b < 256) :
    (hexEncode bs).all isLowerHexC = true := by
  induction bs with
  | nil => rfl
  | cons b rest ih =>
    have hb := h b (List.mem_cons_self b rest)
    simp [hexEncode, List.all_cons, hexDigit_lowerHex (b / 16) (by omega),
      hexDigit_lowerHex (b % 16) (Nat.mod_lt _ (by omega)),
      ih (fun x hx => h x (List.mem_cons_of_mem b hx))]

/-- C6: the hash helper is deterministic and always renders as "sha256:"
followed by exactly 64 lowercase hex characters. -/
theorem c6_hash_deterministic_hex (s : String) :
    hash_text s = hash_text s ∧
    (hash_text s).length = 71 ∧
    (hash_text s).data.take 7 = "sha256:".data ∧
    ((hash_text s).data.drop 7).all isLowerHexC = true := by
  refine ⟨rfl, ?_, ?_, ?_⟩
  · show ("sha256:".data ++ hexEncode (sha256 (strBytes s))).length = 71
    rw [List.length_append, hexEncode_length, sha256_length]
    rfl
  · show ("sha256:".data ++ hexEncode (sha256 (strBytes s))).take 7 = "sha256:".data
    have h7 : ("sha256:".data : List Char).length = 7 := rfl
    rw [← h7, List.take_left]
  · show (("sha256:".data ++ hexEncode (sha256 (strBytes s))).drop 7).all isLowerHexC = true
    have h7 : ("sha256:".data : List Char).length = 7 := rfl
    rw [← h7, List.drop_left]
    exact hexEncode_all_lowerHex _ (sha256_bytes_lt _)
